import Mathlib

/-!
Verification of the semantic-analysis stage of the grv query/filter expression
language (literal-type coercion and validation), shallowly embedded from
`src/util.go`.  The AST node set, token kinds and node positions are defined by
the parser/scanner of the repository; where those definitions are not part of
the provided source they are modelled from the specification and marked as such
in their doc comments.
-/

namespace Grv

/-- FieldType represents the data type of a field (`src/util.go` lines 154-165). -/
inductive FieldType
  | FtInvalid
  | FtString
  | FtNumber
  | FtDate
  | FtGlob
  | FtRegex
deriving DecidableEq, Repr

/-- Modelled from the spec: the query token kinds assigned by the external
scanner/parser.  The spec names logical connectives (AND/OR), negation and the
comparison operators: equality, ordering, glob-match and regex-match.  The two
kinds referenced by name in `src/util.go` are the glob-match kind `QtkCmpGlob`
and the regex-match kind `QtkCmpRegexp`. -/
inductive QueryTokenType
  | QtkWord
  | QtkAnd
  | QtkOr
  | QtkNot
  | QtkCmpEq
  | QtkCmpNe
  | QtkCmpGt
  | QtkCmpGe
  | QtkCmpLt
  | QtkCmpLe
  | QtkCmpGlob
  | QtkCmpRegexp
deriving DecidableEq, Repr

/-- Modelled from the spec: a source position (1-based line and column) as
produced by the external scanner. -/
structure QueryScannerPos where
  line : Nat
  col : Nat
deriving DecidableEq, Repr

/-- Modelled from the spec: a positioned token produced by the external scanner
(the fields used by `src/util.go` are the token kind, its text and its start
position). -/
structure QueryToken where
  tokenType : QueryTokenType
  value : String
  startPos : QueryScannerPos
deriving DecidableEq, Repr

/-- Operator wraps the operator token of a unary or binary expression (built by
the external parser; only its `operator` token field is used in `src/util.go`). -/
structure Operator where
  operator : QueryToken
deriving DecidableEq, Repr

/-- The calendar fields held by a `DateLiteral`.  A value built by coercion is
constructed by `time.Date(year, month, day, hour, minute, second, nsec,
time.Local)` (`src/util.go` lines 408-409); `isLocal` records that the fields
are interpreted in the local time zone. -/
structure DateTime where
  year : Nat
  month : Nat
  day : Nat
  hour : Nat
  minute : Nat
  second : Nat
  isLocal : Bool
deriving DecidableEq, Repr

/-- A compiled glob matcher (the external `glob` library value stored inside a
`GlobLiteral`); represented by the pattern it was compiled from. -/
structure GlobValue where
  compiledFrom : String
deriving DecidableEq, Repr

/-- A compiled regular expression (the external `regexp` library value stored
inside a `RegexLiteral`); represented by the pattern it was compiled from. -/
structure RegexValue where
  compiledFrom : String
deriving DecidableEq, Repr

/-- The AST node set.  Leaf nodes carry the token data used by `src/util.go`:
`Identifier` and `StringLiteral`/`NumberLiteral` carry their token;
`DateLiteral`, `GlobLiteral` and `RegexLiteral` carry the compiled value and
the original string token they replaced (`src/util.go` lines 181-282).
Compound nodes (`UnaryExpression`, `BinaryExpression`, `ParenExpression`) are
built by the external parser. -/
inductive Expression
  | identifier (tok : QueryToken)
  | stringLiteral (tok : QueryToken)
  | numberLiteral (tok : QueryToken)
  | dateLiteral (dateTime : DateTime) (stringTime : QueryToken)
  | globLiteral (g : GlobValue) (globString : QueryToken)
  | regexLiteral (re : RegexValue) (regexString : QueryToken)
  | unary (op : Operator) (expr : Expression)
  | binary (op : Operator) (lhs rhs : Expression)
  | paren (expr : Expression)
deriving DecidableEq, Repr

/-- FieldTypeDescriptor provides the type of the provided field if it exists
(`src/util.go` lines 47-50); `none` models `fieldExists = false`. -/
abbrev FieldTypeDescriptor := String → Option FieldType

/-- Modelled from the spec: `IsComparison` on `BinaryExpression` is defined in
the parser outside the provided source.  Per the spec, classification is a
property of the operator: comparison operators are equality, ordering,
glob-match and regex-match; AND/OR are logical connectives. -/
def QueryTokenType.isComparisonOperator : QueryTokenType → Bool
  | .QtkCmpEq => true
  | .QtkCmpNe => true
  | .QtkCmpGt => true
  | .QtkCmpGe => true
  | .QtkCmpLt => true
  | .QtkCmpLe => true
  | .QtkCmpGlob => true
  | .QtkCmpRegexp => true
  | _ => false

/-- IsComparison classifies a binary expression by its operator token kind. -/
def IsComparison (op : Operator) : Bool :=
  op.operator.tokenType.isComparisonOperator

/-- Modelled from the spec: the `Pos` methods of compound nodes are defined in
the parser outside the provided source.  Every node reports a source position;
leaf nodes report their token's start position (as the `Pos` methods in
`src/util.go` do), a unary expression reports its operator token's position,
and binary/paren expressions report the position of their leftmost constituent. -/
def Expression.Pos : Expression → QueryScannerPos
  | .identifier t => t.startPos
  | .stringLiteral t => t.startPos
  | .numberLiteral t => t.startPos
  | .dateLiteral _ t => t.startPos
  | .globLiteral _ t => t.startPos
  | .regexLiteral _ t => t.startPos
  | .unary op _ => op.operator.startPos
  | .binary _ l _ => l.Pos
  | .paren e => e.Pos

/-- The nodes implementing the `LogicalExpression` capability: exactly the
types of `src/util.go` with both a `ConvertTypes` and a `Validate` method,
namely `ParenExpression`, `UnaryExpression` and `BinaryExpression`. -/
def Expression.isLogical : Expression → Bool
  | .unary _ _ => true
  | .binary _ _ _ => true
  | .paren _ => true
  | _ => false

/-- The nodes implementing the `ValidatableExpression` capability: the types of
`src/util.go` with a `Validate` method, namely `Identifier`,
`ParenExpression`, `UnaryExpression` and `BinaryExpression`. -/
def Expression.isValidatable : Expression → Bool
  | .identifier _ => true
  | .unary _ _ => true
  | .binary _ _ _ => true
  | .paren _ => true
  | _ => false

/-- The Go struct name of a node, as produced by
`reflect.TypeOf(expression).Elem().Name()` in `src/util.go` line 75. -/
def Expression.kindName : Expression → String
  | .identifier _ => "Identifier"
  | .stringLiteral _ => "StringLiteral"
  | .numberLiteral _ => "NumberLiteral"
  | .dateLiteral _ _ => "DateLiteral"
  | .globLiteral _ _ => "GlobLiteral"
  | .regexLiteral _ _ => "RegexLiteral"
  | .unary _ _ => "UnaryExpression"
  | .binary _ _ _ => "BinaryExpression"
  | .paren _ => "ParenExpression"

/-- The binary operator position (`src/util.go` lines 81-86). -/
inductive binaryOperatorPosition
  | bopLeft
  | bopRight
deriving DecidableEq, Repr

/-- The operand-restriction table (`src/util.go` lines 88-105): the glob-match
operator requires `String` on the left and `Glob` on the right; the regex-match
operator requires `String` on the left and `Regex` on the right; every other
operator kind is absent from the table. -/
def operatorAllowedOperandTypes (t : QueryTokenType) :
    Option (binaryOperatorPosition → List FieldType) :=
  match t with
  | .QtkCmpGlob => some fun p =>
      match p with
      | .bopLeft => [.FtString]
      | .bopRight => [.FtGlob]
  | .QtkCmpRegexp => some fun p =>
      match p with
      | .bopLeft => [.FtString]
      | .bopRight => [.FtRegex]
  | _ => none

/-- isOperandTypeRestricted (`src/util.go` lines 107-110): an operator is
restricted exactly when its token kind is a key of the table. -/
def Operator.isOperandTypeRestricted (op : Operator) : Bool :=
  (operatorAllowedOperandTypes op.operator.tokenType).isSome

/-- isValidArgument (`src/util.go` lines 112-126): `true` for an operator kind
absent from the table, otherwise membership of the operand type in the allowed
set for the given side. -/
def Operator.isValidArgument (op : Operator) (p : binaryOperatorPosition)
    (operandType : FieldType) : Bool :=
  match operatorAllowedOperandTypes op.operator.tokenType with
  | none => true
  | some m => (m p).contains operandType

/-- allowedTypes (`src/util.go` lines 128-144): the allowed types for a side,
empty for an operator kind absent from the table. -/
def Operator.allowedTypes (op : Operator) (p : binaryOperatorPosition) :
    List FieldType :=
  match operatorAllowedOperandTypes op.operator.tokenType with
  | none => []
  | some m => m p

/-- fieldTypeNames (`src/util.go` lines 167-174). -/
def fieldTypeNames : FieldType → String
  | .FtInvalid => "Invalid"
  | .FtString => "String"
  | .FtNumber => "Number"
  | .FtDate => "Date"
  | .FtGlob => "Glob"
  | .FtRegex => "Regex"

/-- fieldTypeNamesString (`src/util.go` lines 600-610): comma-joined type names. -/
def fieldTypeNamesString (fieldTypes : List FieldType) : String :=
  String.intercalate ", " (fieldTypes.map fieldTypeNames)

/-- The numeric value of a run of ASCII digit characters. -/
def digitsToNat (cs : List Char) : Nat :=
  cs.foldl (fun a c => 10 * a + (c.toNat - 48)) 0

/-- Anchored match of `dateFormatPattern` = `^\d{4}-\d{2}-\d{2}$`
(`src/util.go` line 151), returning the year, month and day digit values on a
match. -/
def matchDateOnly (cs : List Char) : Option (Nat × Nat × Nat) :=
  match cs with
  | [y1, y2, y3, y4, '-', m1, m2, '-', d1, d2] =>
    if y1.isDigit && y2.isDigit && y3.isDigit && y4.isDigit &&
       m1.isDigit && m2.isDigit && d1.isDigit && d2.isDigit then
      some (digitsToNat [y1, y2, y3, y4], digitsToNat [m1, m2], digitsToNat [d1, d2])
    else
      none
  | _ => none

/-- Anchored match of `dateTimeFormatPattern` = `^\d{4}-\d{2}-\d{2} \d{2}:\d{2}:\d{2}$`
(`src/util.go` line 152), returning the six field digit values on a match. -/
def matchDateTime (cs : List Char) : Option (Nat × Nat × Nat × Nat × Nat × Nat) :=
  match cs with
  | [y1, y2, y3, y4, '-', m1, m2, '-', d1, d2, ' ', h1, h2, ':', n1, n2, ':', s1, s2] =>
    if y1.isDigit && y2.isDigit && y3.isDigit && y4.isDigit &&
       m1.isDigit && m2.isDigit && d1.isDigit && d2.isDigit &&
       h1.isDigit && h2.isDigit && n1.isDigit && n2.isDigit &&
       s1.isDigit && s2.isDigit then
      some (digitsToNat [y1, y2, y3, y4], digitsToNat [m1, m2], digitsToNat [d1, d2],
            digitsToNat [h1, h2], digitsToNat [n1, n2], digitsToNat [s1, s2])
    else
      none
  | _ => none

/-- Gregorian leap-year rule used by the external time library. -/
def isLeapYear (y : Nat) : Bool :=
  y % 4 == 0 && (y % 100 != 0 || y % 400 == 0)

/-- Days in a month of a given year (0 for a month outside 1..12). -/
def daysInMonth (m y : Nat) : Nat :=
  match m with
  | 1 => 31
  | 2 => if isLeapYear y then 29 else 28
  | 3 => 31
  | 4 => 30
  | 5 => 31
  | 6 => 30
  | 7 => 31
  | 8 => 31
  | 9 => 30
  | 10 => 31
  | 11 => 30
  | 12 => 31
  | _ => 0

/-- Modelled from the spec together with the documented behaviour of the
external Go `time.Parse` used at `src/util.go` lines 392-409 (the `time`
package is not part of this repository): the candidate string must fully match
`dateFormatPattern` or, failing that, `dateTimeFormatPattern` (lines 394-401);
the matched text must then parse as a valid calendar date — month in 1..12, day
in 1..days of that month, hour at most 23, minute and second at most 59.  On
success the parsed calendar fields are interpreted in the local time zone
(`time.Date(..., time.Local)`, lines 408-409). -/
def parseQueryDate (s : String) : Option DateTime :=
  match matchDateOnly s.data with
  | some (y, m, d) =>
    if 1 ≤ m ∧ m ≤ 12 ∧ 1 ≤ d ∧ d ≤ daysInMonth m y then
      some ⟨y, m, d, 0, 0, 0, true⟩
    else
      none
  | none =>
    match matchDateTime s.data with
    | some (y, m, d, h, n, sec) =>
      if 1 ≤ m ∧ m ≤ 12 ∧ 1 ≤ d ∧ d ≤ daysInMonth m y ∧ h ≤ 23 ∧ n ≤ 59 ∧ sec ≤ 59 then
        some ⟨y, m, d, h, n, sec, true⟩
      else
        none
    | none => none

/-- The operand slot targeted by a comparison inference (in the source a
pointer to `lhs` or `rhs`). -/
inductive OperandSide
  | left
  | right
deriving DecidableEq, Repr

/-- Replace the operand at the given side of the pair. -/
def setOperand (side : OperandSide) (e lhs rhs : Expression) : Expression × Expression :=
  match side with
  | .left => (e, rhs)
  | .right => (lhs, e)

/-- The opposite operand slot. -/
def flipSide : OperandSide → OperandSide
  | .left => .right
  | .right => .left

/-- isDateComparison (`src/util.go` lines 417-444): if the lhs is an
identifier, the candidate string literal must be the rhs; otherwise the lhs
must be the string literal and the rhs the identifier.  The identifier's
oracle-reported field type must exist and be `Date`.  Returns the candidate
string token and the slot it occupies. -/
def isDateComparison (ftd : FieldTypeDescriptor) (lhs rhs : Expression) :
    Option (QueryToken × OperandSide) :=
  match lhs with
  | .identifier it =>
    match rhs with
    | .stringLiteral st =>
      if ftd it.value = some .FtDate then some (st, .right) else none
    | _ => none
  | _ =>
    match rhs with
    | .identifier it =>
      match lhs with
      | .stringLiteral st =>
        if ftd it.value = some .FtDate then some (st, .left) else none
      | _ => none
    | _ => none

/-- processDateComparison (`src/util.go` lines 386-415): on a date comparison,
match the candidate text against the two date patterns and parse it; on success
replace the candidate slot with a `DateLiteral` carrying the parsed fields and
the original token; otherwise leave both slots unchanged. -/
def processDateComparison (ftd : FieldTypeDescriptor) (lhs rhs : Expression) :
    Expression × Expression :=
  match isDateComparison ftd lhs rhs with
  | none => (lhs, rhs)
  | some (st, side) =>
    match parseQueryDate st.value with
    | none => (lhs, rhs)
    | some dt => setOperand side (.dateLiteral dt st) lhs rhs

/-- isGlobComparison (`src/util.go` lines 463-491): the operator kind must be
the glob-match kind, the sides must be an identifier and a string literal in
either order, and the identifier's field type must exist and be `String`. -/
def isGlobComparison (ftd : FieldTypeDescriptor) (op : Operator) (lhs rhs : Expression) :
    Option (QueryToken × OperandSide) :=
  if op.operator.tokenType = .QtkCmpGlob then
    match lhs with
    | .identifier it =>
      match rhs with
      | .stringLiteral st =>
        if ftd it.value = some .FtString then some (st, .right) else none
      | _ => none
    | _ =>
      match rhs with
      | .identifier it =>
        match lhs with
        | .stringLiteral st =>
          if ftd it.value = some .FtString then some (st, .left) else none
        | _ => none
      | _ => none
  else
    none

/-- processGlobComparison (`src/util.go` lines 446-461): on a glob comparison,
compile the candidate text with the external glob library (modelled by the
`globCompile` argument); on success replace the candidate slot with a
`GlobLiteral` carrying the compiled value and the original token; on compile
failure leave both slots unchanged. -/
def processGlobComparison (globCompile : String → Option GlobValue)
    (ftd : FieldTypeDescriptor) (op : Operator) (lhs rhs : Expression) :
    Expression × Expression :=
  match isGlobComparison ftd op lhs rhs with
  | none => (lhs, rhs)
  | some (st, side) =>
    match globCompile st.value with
    | none => (lhs, rhs)
    | some g => setOperand side (.globLiteral g st) lhs rhs

/-- isRegexComparison (`src/util.go` lines 510-538): the operator kind must be
the regex-match kind, the sides must be an identifier and a string literal in
either order, and the identifier's field type must exist and be `String`. -/
def isRegexComparison (ftd : FieldTypeDescriptor) (op : Operator) (lhs rhs : Expression) :
    Option (QueryToken × OperandSide) :=
  if op.operator.tokenType = .QtkCmpRegexp then
    match lhs with
    | .identifier it =>
      match rhs with
      | .stringLiteral st =>
        if ftd it.value = some .FtString then some (st, .right) else none
      | _ => none
    | _ =>
      match rhs with
      | .identifier it =>
        match lhs with
        | .stringLiteral st =>
          if ftd it.value = some .FtString then some (st, .left) else none
        | _ => none
      | _ => none
  else
    none

/-- processRegexComparison (`src/util.go` lines 493-508): on a regex
comparison, compile the candidate text with the external regexp library
(modelled by the `regexCompile` argument); on success replace the candidate
slot with a `RegexLiteral`; on compile failure leave both slots unchanged. -/
def processRegexComparison (regexCompile : String → Option RegexValue)
    (ftd : FieldTypeDescriptor) (op : Operator) (lhs rhs : Expression) :
    Expression × Expression :=
  match isRegexComparison ftd op lhs rhs with
  | none => (lhs, rhs)
  | some (st, side) =>
    match regexCompile st.value with
    | none => (lhs, rhs)
    | some re => setOperand side (.regexLiteral re st) lhs rhs

/-- The sequence of the three comparison inferences run by
`BinaryExpression.ConvertTypes` on a comparison node (`src/util.go` lines
381-383): date, then glob, then regex. -/
def processComparisons (globCompile : String → Option GlobValue)
    (regexCompile : String → Option RegexValue) (ftd : FieldTypeDescriptor)
    (op : Operator) (lhs rhs : Expression) : Expression × Expression :=
  let p1 := processDateComparison ftd lhs rhs
  let p2 := processGlobComparison globCompile ftd op p1.1 p1.2
  processRegexComparison regexCompile ftd op p2.1 p2.2

/-- ConvertTypes (`src/util.go` lines 324-349 and 366-384): paren and unary
nodes recurse into their child when it is a `LogicalExpression`; a
non-comparison binary node recurses into each side that is a
`LogicalExpression`; a comparison binary node runs the three inferences on its
operand slots.  Leaf nodes have no `ConvertTypes` method and are unchanged. -/
def ConvertTypes (globCompile : String → Option GlobValue)
    (regexCompile : String → Option RegexValue) (ftd : FieldTypeDescriptor) :
    Expression → Expression
  | .paren e =>
    .paren (if e.isLogical then ConvertTypes globCompile regexCompile ftd e else e)
  | .unary op e =>
    .unary op (if e.isLogical then ConvertTypes globCompile regexCompile ftd e else e)
  | .binary op lhs rhs =>
    if IsComparison op then
      let p := processComparisons globCompile regexCompile ftd op lhs rhs
      .binary op p.1 p.2
    else
      .binary op
        (if lhs.isLogical then ConvertTypes globCompile regexCompile ftd lhs else lhs)
        (if rhs.isLogical then ConvertTypes globCompile regexCompile ftd rhs else rhs)
  | e => e

/-- GenerateExpressionError (`src/util.go` lines 314-322): renders
`"<line>:<col>: <message>"` from the expression's position. -/
def GenerateExpressionError (e : Expression) (msg : String) : String :=
  toString e.Pos.line ++ ":" ++ toString e.Pos.col ++ ": " ++ msg

/-- determineFieldType (`src/util.go` lines 591-598): the resolved field type
of a node implementing the `TypeDescriptor` capability (`none` if the node
does not implement it).  Identifiers resolve through the oracle with
`FtInvalid` for unknown fields (lines 285-291); literals have fixed types
(lines 208-282). -/
def determineFieldType (ftd : FieldTypeDescriptor) : Expression → Option FieldType
  | .identifier t =>
    some (match ftd t.value with
          | some ft => ft
          | none => .FtInvalid)
  | .stringLiteral _ => some .FtString
  | .numberLiteral _ => some .FtNumber
  | .dateLiteral _ _ => some .FtDate
  | .globLiteral _ _ => some .FtGlob
  | .regexLiteral _ _ => some .FtRegex
  | _ => none

/-- Validate (`src/util.go` lines 293-300, 332-342, 352-364, 541-589):
accumulates positioned diagnostics.  An identifier reports an unknown field; a
paren/unary node reports a non-boolean child and recurses into a validatable
child; a non-comparison binary node reports each non-logical side and recurses
into each logical side; a comparison binary node recurses into each validatable
side and then performs the value-type, restricted-operand and different-types
checks. -/
def Validate (ftd : FieldTypeDescriptor) : Expression → List String
  | .identifier t =>
    if (ftd t.value).isSome then []
    else [GenerateExpressionError (.identifier t) ("Invalid field: " ++ t.value)]
  | .paren e =>
    (if e.isLogical then []
     else [GenerateExpressionError (.paren e)
            "Expression in parentheses must resolve to a boolean value"]) ++
    (if e.isValidatable then Validate ftd e else [])
  | .unary op e =>
    (if e.isLogical then []
     else [GenerateExpressionError (.unary op e)
            (op.operator.value ++
             " operator can only be applied to expressions that resolve to a boolean value")]) ++
    (if e.isValidatable then Validate ftd e else [])
  | .binary op lhs rhs =>
    if IsComparison op then
      (if lhs.isValidatable then Validate ftd lhs else []) ++
      (if rhs.isValidatable then Validate ftd rhs else []) ++
      (match determineFieldType ftd lhs, determineFieldType ftd rhs with
       | some lhsType, some rhsType =>
         if op.isOperandTypeRestricted then
           if lhsType = .FtInvalid ∨ rhsType = .FtInvalid then []
           else
             (if op.isValidArgument .bopLeft lhsType then []
              else [GenerateExpressionError (.binary op lhs rhs)
                     ("Argument on LHS has invalid type: " ++ fieldTypeNames lhsType ++
                      ". Allowed types are: " ++
                      fieldTypeNamesString (op.allowedTypes .bopLeft))]) ++
             (if op.isValidArgument .bopRight rhsType then []
              else [GenerateExpressionError (.binary op lhs rhs)
                     ("Argument on RHS has invalid type: " ++ fieldTypeNames rhsType ++
                      ". Allowed types are: " ++
                      fieldTypeNamesString (op.allowedTypes .bopRight))])
         else
           if lhsType ≠ rhsType ∧ ¬(lhsType = .FtInvalid ∨ rhsType = .FtInvalid) then
             [GenerateExpressionError (.binary op lhs rhs)
               ("Attempting to compare different types - LHS Type: " ++
                fieldTypeNames lhsType ++ " vs RHS Type: " ++ fieldTypeNames rhsType)]
           else []
       | _, _ =>
         [GenerateExpressionError (.binary op lhs rhs)
           "Comparison expressions must compare value types"])
    else
      (if lhs.isLogical then Validate ftd lhs
       else [GenerateExpressionError (.binary op lhs rhs)
              "Operands of a logical operator must resolve to boolean values"]) ++
      (if rhs.isLogical then Validate ftd rhs
       else [GenerateExpressionError (.binary op lhs rhs)
              "Operands of a logical operator must resolve to boolean values"])
  | _ => []

/-- Process (`src/util.go` lines 67-79): when the root implements
`LogicalExpression`, run `ConvertTypes` then `Validate` and return the
converted tree; otherwise return no expression (the named return value is left
nil) and the single "Expected logical expression" error. -/
def Process (globCompile : String → Option GlobValue)
    (regexCompile : String → Option RegexValue) (ftd : FieldTypeDescriptor)
    (e : Expression) : Option Expression × List String :=
  if e.isLogical then
    let converted := ConvertTypes globCompile regexCompile ftd e
    (some converted, Validate ftd converted)
  else
    (none, ["Expected logical expression but received expression of type " ++ e.kindName])

/-- Whether a node is a `StringLiteral` (the only node kind a coercion can
replace). -/
def isStringLit : Expression → Bool
  | .stringLiteral _ => true
  | _ => false

/-- The change a coercion may make to one operand slot of a comparison: either
the slot is untouched, or a `StringLiteral` is replaced by a `DateLiteral`,
`GlobLiteral` or `RegexLiteral` carrying the original token. -/
def slotOk (e e2 : Expression) : Prop :=
  e2 = e ∨
  ∃ tok, e = .stringLiteral tok ∧
    ((∃ dt, e2 = .dateLiteral dt tok) ∨
     (∃ g, e2 = .globLiteral g tok) ∨
     (∃ re, e2 = .regexLiteral re tok))

/-- The frame relation of the coercion pass: every node is unchanged except
that the operand slots of a comparison `BinaryExpression` may undergo a
`slotOk` replacement; children of a non-comparison binary, unary or paren node
are related recursively, and every other node is equal. -/
def frameOk : Expression → Expression → Prop
  | .binary op l r, e2 =>
    ∃ l2 r2, e2 = .binary op l2 r2 ∧
      ((IsComparison op = true ∧ slotOk l l2 ∧ slotOk r r2) ∨
       (IsComparison op = false ∧ frameOk l l2 ∧ frameOk r r2))
  | .unary op e, e2 => ∃ c, e2 = .unary op c ∧ frameOk e c
  | .paren e, e2 => ∃ c, e2 = .paren c ∧ frameOk e c
  | e, e2 => e2 = e

/-- A glob compiler that fails on every input. -/
def noGlobCompile : String → Option GlobValue := fun _ => none

/-- A regex compiler that fails on every input. -/
def noRegexCompile : String → Option RegexValue := fun _ => none

/-- A glob compiler that succeeds on every input. -/
def okGlobCompile : String → Option GlobValue := fun s => some ⟨s⟩

/-- A regex compiler that succeeds on every input. -/
def okRegexCompile : String → Option RegexValue := fun s => some ⟨s⟩

/-- A field-type oracle with a `String` field `name` and a `Date` field `created`. -/
def sampleFields : FieldTypeDescriptor := fun n =>
  if n = "name" then some .FtString
  else if n = "created" then some .FtDate
  else none

/-- An identifier expression used as a non-logical root. -/
def identRoot : Expression := .identifier ⟨.QtkWord, "authorname", ⟨1, 1⟩⟩

/-! Helper lemmas and claim theorems. -/

/-- Inversion for a successful date-comparison detection: the operands are an
identifier whose field type is `Date` and the candidate string literal, in one
of the two orders, and the reported side is the candidate's slot. -/
theorem isDateComparison_some (ftd : FieldTypeDescriptor) (l r : Expression)
    (st : QueryToken) (side : OperandSide)
    (h : isDateComparison ftd l r = some (st, side)) :
    (side = .right ∧ (∃ it, l = .identifier it ∧ ftd it.value = some .FtDate) ∧
      r = .stringLiteral st) ∨
    (side = .left ∧ l = .stringLiteral st ∧
      ∃ it, r = .identifier it ∧ ftd it.value = some .FtDate) := by
  cases l <;> cases r <;>
    simp only [isDateComparison] at h <;>
    first
      | cases h
      | (split at h <;> simp_all)

/-- Inversion for a successful glob-comparison detection. -/
theorem isGlobComparison_some (ftd : FieldTypeDescriptor) (op : Operator)
    (l r : Expression) (st : QueryToken) (side : OperandSide)
    (h : isGlobComparison ftd op l r = some (st, side)) :
    op.operator.tokenType = .QtkCmpGlob ∧
    ((side = .right ∧ (∃ it, l = .identifier it ∧ ftd it.value = some .FtString) ∧
       r = .stringLiteral st) ∨
     (side = .left ∧ l = .stringLiteral st ∧
       ∃ it, r = .identifier it ∧ ftd it.value = some .FtString)) := by
  unfold isGlobComparison at h
  split at h
  case isFalse => cases h
  case isTrue hop =>
    refine ⟨hop, ?_⟩
    cases l <;> cases r <;>
      first
        | cases h
        | (split at h <;> simp_all)

/-- Inversion for a successful regex-comparison detection. -/
theorem isRegexComparison_some (ftd : FieldTypeDescriptor) (op : Operator)
    (l r : Expression) (st : QueryToken) (side : OperandSide)
    (h : isRegexComparison ftd op l r = some (st, side)) :
    op.operator.tokenType = .QtkCmpRegexp ∧
    ((side = .right ∧ (∃ it, l = .identifier it ∧ ftd it.value = some .FtString) ∧
       r = .stringLiteral st) ∨
     (side = .left ∧ l = .stringLiteral st ∧
       ∃ it, r = .identifier it ∧ ftd it.value = some .FtString)) := by
  unfold isRegexComparison at h
  split at h
  case isFalse => cases h
  case isTrue hop =>
    refine ⟨hop, ?_⟩
    cases l <;> cases r <;>
      first
        | cases h
        | (split at h <;> simp_all)

/-- When neither side is a string literal, no date candidate exists. -/
theorem isDateComparison_none_of_strless (ftd : FieldTypeDescriptor)
    (l r : Expression) (hl : isStringLit l = false) (hr : isStringLit r = false) :
    isDateComparison ftd l r = none := by
  cases l <;> cases r <;> simp_all [isDateComparison, isStringLit]

/-- When neither side is a string literal, no glob candidate exists. -/
theorem isGlobComparison_none_of_strless (ftd : FieldTypeDescriptor) (op : Operator)
    (l r : Expression) (hl : isStringLit l = false) (hr : isStringLit r = false) :
    isGlobComparison ftd op l r = none := by
  unfold isGlobComparison
  split
  · cases l <;> cases r <;> simp_all [isStringLit]
  · rfl

/-- When neither side is a string literal, no regex candidate exists. -/
theorem isRegexComparison_none_of_strless (ftd : FieldTypeDescriptor) (op : Operator)
    (l r : Expression) (hl : isStringLit l = false) (hr : isStringLit r = false) :
    isRegexComparison ftd op l r = none := by
  unfold isRegexComparison
  split
  · cases l <;> cases r <;> simp_all [isStringLit]
  · rfl

/-- The date inference either leaves the operand pair unchanged or produces a
pair with no string-literal side. -/
theorem processDateComparison_id_or_strless (ftd : FieldTypeDescriptor)
    (l r : Expression) :
    processDateComparison ftd l r = (l, r) ∨
    (isStringLit (processDateComparison ftd l r).1 = false ∧
     isStringLit (processDateComparison ftd l r).2 = false) := by
  unfold processDateComparison
  cases hc : isDateComparison ftd l r with
  | none => exact Or.inl rfl
  | some v =>
    obtain ⟨st, side⟩ := v
    cases hp : parseQueryDate st.value with
    | none => simp [hp]
    | some dt =>
      simp only [hp]
      rcases isDateComparison_some ftd l r st side hc with
        ⟨hs, ⟨it, hle, _⟩, hre⟩ | ⟨hs, hle, it, hre, _⟩ <;>
          (subst hs; subst hle; subst hre; exact Or.inr ⟨rfl, rfl⟩)

/-- The glob inference either leaves the operand pair unchanged or produces a
pair with no string-literal side. -/
theorem processGlobComparison_id_or_strless (gc : String → Option GlobValue)
    (ftd : FieldTypeDescriptor) (op : Operator) (l r : Expression) :
    processGlobComparison gc ftd op l r = (l, r) ∨
    (isStringLit (processGlobComparison gc ftd op l r).1 = false ∧
     isStringLit (processGlobComparison gc ftd op l r).2 = false) := by
  unfold processGlobComparison
  cases hc : isGlobComparison ftd op l r with
  | none => exact Or.inl rfl
  | some v =>
    obtain ⟨st, side⟩ := v
    cases hp : gc st.value with
    | none => simp [hp]
    | some g =>
      simp only [hp]
      rcases (isGlobComparison_some ftd op l r st side hc).2 with
        ⟨hs, ⟨it, hle, _⟩, hre⟩ | ⟨hs, hle, it, hre, _⟩ <;>
          (subst hs; subst hle; subst hre; exact Or.inr ⟨rfl, rfl⟩)

/-- The regex inference either leaves the operand pair unchanged or produces a
pair with no string-literal side. -/
theorem processRegexComparison_id_or_strless (rc : String → Option RegexValue)
    (ftd : FieldTypeDescriptor) (op : Operator) (l r : Expression) :
    processRegexComparison rc ftd op l r = (l, r) ∨
    (isStringLit (processRegexComparison rc ftd op l r).1 = false ∧
     isStringLit (processRegexComparison rc ftd op l r).2 = false) := by
  unfold processRegexComparison
  cases hc : isRegexComparison ftd op l r with
  | none => exact Or.inl rfl
  | some v =>
    obtain ⟨st, side⟩ := v
    cases hp : rc st.value with
    | none => simp [hp]
    | some re =>
      simp only [hp]
      rcases (isRegexComparison_some ftd op l r st side hc).2 with
        ⟨hs, ⟨it, hle, _⟩, hre⟩ | ⟨hs, hle, it, hre, _⟩ <;>
          (subst hs; subst hle; subst hre; exact Or.inr ⟨rfl, rfl⟩)

/-- On a pair with no string-literal side the date inference is a no-op. -/
theorem processDateComparison_id_of_strless (ftd : FieldTypeDescriptor)
    (l r : Expression) (hl : isStringLit l = false) (hr : isStringLit r = false) :
    processDateComparison ftd l r = (l, r) := by
  unfold processDateComparison
  rw [isDateComparison_none_of_strless ftd l r hl hr]

/-- On a pair with no string-literal side the glob inference is a no-op. -/
theorem processGlobComparison_id_of_strless (gc : String → Option GlobValue)
    (ftd : FieldTypeDescriptor) (op : Operator) (l r : Expression)
    (hl : isStringLit l = false) (hr : isStringLit r = false) :
    processGlobComparison gc ftd op l r = (l, r) := by
  unfold processGlobComparison
  rw [isGlobComparison_none_of_strless ftd op l r hl hr]

/-- On a pair with no string-literal side the regex inference is a no-op. -/
theorem processRegexComparison_id_of_strless (rc : String → Option RegexValue)
    (ftd : FieldTypeDescriptor) (op : Operator) (l r : Expression)
    (hl : isStringLit l = false) (hr : isStringLit r = false) :
    processRegexComparison rc ftd op l r = (l, r) := by
  unfold processRegexComparison
  rw [isRegexComparison_none_of_strless ftd op l r hl hr]

/-- On a pair with no string-literal side all three inferences are no-ops. -/
theorem processComparisons_strless_id (gc : String → Option GlobValue)
    (rc : String → Option RegexValue) (ftd : FieldTypeDescriptor) (op : Operator)
    (l r : Expression) (hl : isStringLit l = false) (hr : isStringLit r = false) :
    processComparisons gc rc ftd op l r = (l, r) := by
  unfold processComparisons
  rw [processDateComparison_id_of_strless ftd l r hl hr]
  simp only
  rw [processGlobComparison_id_of_strless gc ftd op l r hl hr]
  simp only
  rw [processRegexComparison_id_of_strless rc ftd op l r hl hr]

/-- The inference sequence either leaves the pair unchanged or produces a pair
with no string-literal side. -/
theorem processComparisons_id_or_strless (gc : String → Option GlobValue)
    (rc : String → Option RegexValue) (ftd : FieldTypeDescriptor) (op : Operator)
    (l r : Expression) :
    processComparisons gc rc ftd op l r = (l, r) ∨
    (isStringLit (processComparisons gc rc ftd op l r).1 = false ∧
     isStringLit (processComparisons gc rc ftd op l r).2 = false) := by
  simp only [processComparisons]
  rcases processDateComparison_id_or_strless ftd l r with h1 | ⟨ha, hb⟩
  · simp only [h1]
    rcases processGlobComparison_id_or_strless gc ftd op l r with h2 | ⟨hc2, hd⟩
    · simp only [h2]
      exact processRegexComparison_id_or_strless rc ftd op l r
    · right
      have hr3 := processRegexComparison_id_of_strless rc ftd op _ _ hc2 hd
      simp only [hr3]
      exact ⟨hc2, hd⟩
  · right
    have hg := processGlobComparison_id_of_strless gc ftd op _ _ ha hb
    simp only [hg]
    have hr3 := processRegexComparison_id_of_strless rc ftd op _ _ ha hb
    simp only [hr3]
    exact ⟨ha, hb⟩

/-- The inference sequence on a comparison node is idempotent. -/
theorem processComparisons_idem (gc : String → Option GlobValue)
    (rc : String → Option RegexValue) (ftd : FieldTypeDescriptor) (op : Operator)
    (l r : Expression) :
    processComparisons gc rc ftd op (processComparisons gc rc ftd op l r).1
      (processComparisons gc rc ftd op l r).2 = processComparisons gc rc ftd op l r := by
  rcases processComparisons_id_or_strless gc rc ftd op l r with h | ⟨ha, hb⟩
  · rw [h]; exact h
  · exact processComparisons_strless_id gc rc ftd op _ _ ha hb

/-- Coercion preserves the `LogicalExpression` capability of the root node. -/
theorem isLogical_ConvertTypes (gc : String → Option GlobValue)
    (rc : String → Option RegexValue) (ftd : FieldTypeDescriptor) (e : Expression) :
    (ConvertTypes gc rc ftd e).isLogical = e.isLogical := by
  cases e <;>
    first
      | rfl
      | (simp only [ConvertTypes]; split <;> rfl)

/-- C6: `ConvertTypes` is idempotent — for every tree, oracle and external
compilers, running the coercion pass a second time on the tree produced by the
first run changes nothing: materialized `DateLiteral`/`GlobLiteral`/
`RegexLiteral` operands are not string literals, so no inference applies to
them. -/
theorem ConvertTypes_idempotent (gc : String → Option GlobValue)
    (rc : String → Option RegexValue) (ftd : FieldTypeDescriptor) (e : Expression) :
    ConvertTypes gc rc ftd (ConvertTypes gc rc ftd e) = ConvertTypes gc rc ftd e := by
  induction e with
  | identifier t => rfl
  | stringLiteral t => rfl
  | numberLiteral t => rfl
  | dateLiteral dt t => rfl
  | globLiteral g t => rfl
  | regexLiteral re t => rfl
  | paren e ih =>
    cases h : e.isLogical <;>
      simp [ConvertTypes, h, isLogical_ConvertTypes, ih]
  | unary op e ih =>
    cases h : e.isLogical <;>
      simp [ConvertTypes, h, isLogical_ConvertTypes, ih]
  | binary op l r ihl ihr =>
    by_cases hc : IsComparison op = true
    · simp [ConvertTypes, hc, processComparisons_idem]
    · cases hl : l.isLogical <;> cases hr : r.isLogical <;>
        simp [ConvertTypes, hc, hl, hr, isLogical_ConvertTypes, ihl, ihr]

/-- The frame relation is reflexive. -/
theorem frameOk_refl : ∀ e : Expression, frameOk e e := by
  intro e
  induction e with
  | identifier t => rfl
  | stringLiteral t => rfl
  | numberLiteral t => rfl
  | dateLiteral dt t => rfl
  | globLiteral g t => rfl
  | regexLiteral re t => rfl
  | unary op e ih => exact ⟨e, rfl, ih⟩
  | paren e ih => exact ⟨e, rfl, ih⟩
  | binary op l r ihl ihr =>
    refine ⟨l, r, rfl, ?_⟩
    cases hc : IsComparison op
    · exact Or.inr ⟨rfl, ihl, ihr⟩
    · exact Or.inl ⟨rfl, Or.inl rfl, Or.inl rfl⟩

/-- Slot replacements compose: a replaced slot is never replaced again. -/
theorem slotOk_trans {a b c : Expression} (hab : slotOk a b) (hbc : slotOk b c) :
    slotOk a c := by
  rcases hab with rfl | ⟨tok, rfl, hb⟩
  · exact hbc
  · rcases hbc with rfl | ⟨tok2, hb2, _⟩
    · exact Or.inr ⟨tok, rfl, hb⟩
    · rcases hb with ⟨dt, rfl⟩ | ⟨g, rfl⟩ | ⟨re, rfl⟩ <;> cases hb2

/-- The date inference performs only `slotOk` changes to the operand pair. -/
theorem processDateComparison_slotOk (ftd : FieldTypeDescriptor) (l r : Expression) :
    slotOk l (processDateComparison ftd l r).1 ∧
    slotOk r (processDateComparison ftd l r).2 := by
  unfold processDateComparison
  cases hc : isDateComparison ftd l r with
  | none => exact ⟨Or.inl rfl, Or.inl rfl⟩
  | some v =>
    obtain ⟨st, side⟩ := v
    cases hp : parseQueryDate st.value with
    | none => simp only [hp]; exact ⟨Or.inl rfl, Or.inl rfl⟩
    | some dt =>
      simp only [hp]
      rcases isDateComparison_some ftd l r st side hc with
        ⟨hs, ⟨it, hle, _⟩, hre⟩ | ⟨hs, hle, it, hre, _⟩
      · subst hs; subst hle; subst hre
        exact ⟨Or.inl rfl, Or.inr ⟨st, rfl, Or.inl ⟨dt, rfl⟩⟩⟩
      · subst hs; subst hle; subst hre
        exact ⟨Or.inr ⟨st, rfl, Or.inl ⟨dt, rfl⟩⟩, Or.inl rfl⟩

/-- The glob inference performs only `slotOk` changes to the operand pair. -/
theorem processGlobComparison_slotOk (gc : String → Option GlobValue)
    (ftd : FieldTypeDescriptor) (op : Operator) (l r : Expression) :
    slotOk l (processGlobComparison gc ftd op l r).1 ∧
    slotOk r (processGlobComparison gc ftd op l r).2 := by
  unfold processGlobComparison
  cases hc : isGlobComparison ftd op l r with
  | none => exact ⟨Or.inl rfl, Or.inl rfl⟩
  | some v =>
    obtain ⟨st, side⟩ := v
    cases hp : gc st.value with
    | none => simp only [hp]; exact ⟨Or.inl rfl, Or.inl rfl⟩
    | some g =>
      simp only [hp]
      rcases (isGlobComparison_some ftd op l r st side hc).2 with
        ⟨hs, ⟨it, hle, _⟩, hre⟩ | ⟨hs, hle, it, hre, _⟩
      · subst hs; subst hle; subst hre
        exact ⟨Or.inl rfl, Or.inr ⟨st, rfl, Or.inr (Or.inl ⟨g, rfl⟩)⟩⟩
      · subst hs; subst hle; subst hre
        exact ⟨Or.inr ⟨st, rfl, Or.inr (Or.inl ⟨g, rfl⟩)⟩, Or.inl rfl⟩

/-- The regex inference performs only `slotOk` changes to the operand pair. -/
theorem processRegexComparison_slotOk (rc : String → Option RegexValue)
    (ftd : FieldTypeDescriptor) (op : Operator) (l r : Expression) :
    slotOk l (processRegexComparison rc ftd op l r).1 ∧
    slotOk r (processRegexComparison rc ftd op l r).2 := by
  unfold processRegexComparison
  cases hc : isRegexComparison ftd op l r with
  | none => exact ⟨Or.inl rfl, Or.inl rfl⟩
  | some v =>
    obtain ⟨st, side⟩ := v
    cases hp : rc st.value with
    | none => simp only [hp]; exact ⟨Or.inl rfl, Or.inl rfl⟩
    | some re =>
      simp only [hp]
      rcases (isRegexComparison_some ftd op l r st side hc).2 with
        ⟨hs, ⟨it, hle, _⟩, hre⟩ | ⟨hs, hle, it, hre, _⟩
      · subst hs; subst hle; subst hre
        exact ⟨Or.inl rfl, Or.inr ⟨st, rfl, Or.inr (Or.inr ⟨re, rfl⟩)⟩⟩
      · subst hs; subst hle; subst hre
        exact ⟨Or.inr ⟨st, rfl, Or.inr (Or.inr ⟨re, rfl⟩)⟩, Or.inl rfl⟩

/-- The full inference sequence performs only `slotOk` changes. -/
theorem processComparisons_slotOk (gc : String → Option GlobValue)
    (rc : String → Option RegexValue) (ftd : FieldTypeDescriptor) (op : Operator)
    (l r : Expression) :
    slotOk l (processComparisons gc rc ftd op l r).1 ∧
    slotOk r (processComparisons gc rc ftd op l r).2 := by
  simp only [processComparisons]
  obtain ⟨h1l, h1r⟩ := processDateComparison_slotOk ftd l r
  obtain ⟨h2l, h2r⟩ := processGlobComparison_slotOk gc ftd op
    (processDateComparison ftd l r).1 (processDateComparison ftd l r).2
  obtain ⟨h3l, h3r⟩ := processRegexComparison_slotOk rc ftd op
    (processGlobComparison gc ftd op (processDateComparison ftd l r).1
      (processDateComparison ftd l r).2).1
    (processGlobComparison gc ftd op (processDateComparison ftd l r).1
      (processDateComparison ftd l r).2).2
  exact ⟨slotOk_trans (slotOk_trans h1l h2l) h3l,
         slotOk_trans (slotOk_trans h1r h2r) h3r⟩

/-- C9: `ConvertTypes` never changes the shape of the tree — for every tree,
oracle and external compilers, the only mutations are replacements of a
`StringLiteral` operand slot of a comparison `BinaryExpression` by a
`DateLiteral`, `GlobLiteral` or `RegexLiteral` carrying the original token;
every other node, field and slot is unchanged. -/
theorem ConvertTypes_frameOk (gc : String → Option GlobValue)
    (rc : String → Option RegexValue) (ftd : FieldTypeDescriptor) (e : Expression) :
    frameOk e (ConvertTypes gc rc ftd e) := by
  induction e with
  | identifier t => rfl
  | stringLiteral t => rfl
  | numberLiteral t => rfl
  | dateLiteral dt t => rfl
  | globLiteral g t => rfl
  | regexLiteral re t => rfl
  | paren e ih =>
    cases h : e.isLogical <;> simp only [ConvertTypes, h]
    · exact ⟨e, by simp, frameOk_refl e⟩
    · exact ⟨ConvertTypes gc rc ftd e, by simp, ih⟩
  | unary op e ih =>
    cases h : e.isLogical <;> simp only [ConvertTypes, h]
    · exact ⟨e, by simp, frameOk_refl e⟩
    · exact ⟨ConvertTypes gc rc ftd e, by simp, ih⟩
  | binary op l r ihl ihr =>
    cases hc : IsComparison op <;> simp only [ConvertTypes, hc]
    · refine ⟨(if l.isLogical then ConvertTypes gc rc ftd l else l),
        (if r.isLogical then ConvertTypes gc rc ftd r else r), by simp, Or.inr ⟨hc, ?_, ?_⟩⟩
      · cases hl : l.isLogical
        · simpa [hl] using frameOk_refl l
        · simpa [hl] using ihl
      · cases hr : r.isLogical
        · simpa [hr] using frameOk_refl r
        · simpa [hr] using ihr
    · exact ⟨(processComparisons gc rc ftd op l r).1,
        (processComparisons gc rc ftd op l r).2, by simp,
        Or.inl ⟨hc, processComparisons_slotOk gc rc ftd op l r⟩⟩

/-- A date-typed identifier side makes the glob candidate fail (the glob
inference requires a `String` field type). -/
theorem isGlobComparison_none_of_dateField (ftd : FieldTypeDescriptor) (op : Operator)
    (it st : QueryToken) (hft : ftd it.value = some .FtDate) :
    isGlobComparison ftd op (.identifier it) (.stringLiteral st) = none ∧
    isGlobComparison ftd op (.stringLiteral st) (.identifier it) = none := by
  unfold isGlobComparison
  constructor <;> (split <;> simp [hft])

/-- A date-typed identifier side makes the regex candidate fail (the regex
inference requires a `String` field type). -/
theorem isRegexComparison_none_of_dateField (ftd : FieldTypeDescriptor) (op : Operator)
    (it st : QueryToken) (hft : ftd it.value = some .FtDate) :
    isRegexComparison ftd op (.identifier it) (.stringLiteral st) = none ∧
    isRegexComparison ftd op (.stringLiteral st) (.identifier it) = none := by
  unfold isRegexComparison
  constructor <;> (split <;> simp [hft])

/-- A string-typed identifier side makes the date candidate fail (the date
inference requires a `Date` field type). -/
theorem isDateComparison_none_of_stringField (ftd : FieldTypeDescriptor)
    (it st : QueryToken) (hft : ftd it.value = some .FtString) :
    isDateComparison ftd (.identifier it) (.stringLiteral st) = none ∧
    isDateComparison ftd (.stringLiteral st) (.identifier it) = none := by
  constructor <;> simp [isDateComparison, hft]

/-- An operator kind other than glob-match makes the glob candidate fail. -/
theorem isGlobComparison_none_of_op (ftd : FieldTypeDescriptor) (op : Operator)
    (l r : Expression) (hop : op.operator.tokenType ≠ .QtkCmpGlob) :
    isGlobComparison ftd op l r = none := by
  unfold isGlobComparison
  rw [if_neg hop]

/-- An operator kind other than regex-match makes the regex candidate fail. -/
theorem isRegexComparison_none_of_op (ftd : FieldTypeDescriptor) (op : Operator)
    (l r : Expression) (hop : op.operator.tokenType ≠ .QtkCmpRegexp) :
    isRegexComparison ftd op l r = none := by
  unfold isRegexComparison
  rw [if_neg hop]

/-- The effect of the inference sequence on a comparison of a `Date`-typed
field against a string literal, in either operand order: the string slot is
replaced by a `DateLiteral` exactly when the text parses, and is untouched
otherwise. -/
theorem processComparisons_dateField (gc : String → Option GlobValue)
    (rc : String → Option RegexValue) (ftd : FieldTypeDescriptor) (op : Operator)
    (it st : QueryToken) (hft : ftd it.value = some .FtDate) :
    processComparisons gc rc ftd op (.identifier it) (.stringLiteral st) =
      (match parseQueryDate st.value with
       | some dt => (.identifier it, .dateLiteral dt st)
       | none => (.identifier it, .stringLiteral st)) ∧
    processComparisons gc rc ftd op (.stringLiteral st) (.identifier it) =
      (match parseQueryDate st.value with
       | some dt => (.dateLiteral dt st, .identifier it)
       | none => (.stringLiteral st, .identifier it)) := by
  have hdR : isDateComparison ftd (.identifier it) (.stringLiteral st) =
      some (st, .right) := by
    simp [isDateComparison, hft]
  have hdL : isDateComparison ftd (.stringLiteral st) (.identifier it) =
      some (st, .left) := by
    simp [isDateComparison, hft]
  constructor
  · simp only [processComparisons, processDateComparison, hdR]
    cases hp : parseQueryDate st.value with
    | none =>
      simp only [hp]
      rw [processGlobComparison, (isGlobComparison_none_of_dateField ftd op it st hft).1]
      simp only
      rw [processRegexComparison, (isRegexComparison_none_of_dateField ftd op it st hft).1]
    | some dt =>
      simp only [hp, setOperand]
      rw [processGlobComparison_id_of_strless gc ftd op
        (.identifier it) (.dateLiteral dt st) rfl rfl]
      simp only
      rw [processRegexComparison_id_of_strless rc ftd op
        (.identifier it) (.dateLiteral dt st) rfl rfl]
  · simp only [processComparisons, processDateComparison, hdL]
    cases hp : parseQueryDate st.value with
    | none =>
      simp only [hp]
      rw [processGlobComparison, (isGlobComparison_none_of_dateField ftd op it st hft).2]
      simp only
      rw [processRegexComparison, (isRegexComparison_none_of_dateField ftd op it st hft).2]
    | some dt =>
      simp only [hp, setOperand]
      rw [processGlobComparison_id_of_strless gc ftd op
        (.dateLiteral dt st) (.identifier it) rfl rfl]
      simp only
      rw [processRegexComparison_id_of_strless rc ftd op
        (.dateLiteral dt st) (.identifier it) rfl rfl]

/-- C1: for every comparison of a `Date`-typed field against a string literal
(in either operand order, under any comparison operator kind), `ConvertTypes`
replaces the string-literal operand with a `DateLiteral` if and only if the
text fully matches the anchored `YYYY-MM-DD` or `YYYY-MM-DD HH:MM:SS` pattern
and parses as a valid calendar date; the `DateLiteral` holds the parsed
calendar fields interpreted in the local time zone and retains the original
string token. -/
theorem ConvertTypes_date_inference (gc : String → Option GlobValue)
    (rc : String → Option RegexValue) (ftd : FieldTypeDescriptor) (op : Operator)
    (it st : QueryToken) (hcomp : IsComparison op = true)
    (hft : ftd it.value = some .FtDate) :
    (∀ dt, parseQueryDate st.value = some dt → dt.isLocal = true) ∧
    ConvertTypes gc rc ftd (.binary op (.identifier it) (.stringLiteral st)) =
      (match parseQueryDate st.value with
       | some dt => .binary op (.identifier it) (.dateLiteral dt st)
       | none => .binary op (.identifier it) (.stringLiteral st)) ∧
    ConvertTypes gc rc ftd (.binary op (.stringLiteral st) (.identifier it)) =
      (match parseQueryDate st.value with
       | some dt => .binary op (.dateLiteral dt st) (.identifier it)
       | none => .binary op (.stringLiteral st) (.identifier it)) := by
  obtain ⟨h1, h2⟩ := processComparisons_dateField gc rc ftd op it st hft
  refine ⟨?_, ?_, ?_⟩
  · intro dt h
    unfold parseQueryDate at h
    split at h
    · split at h
      · injection h with h2
        subst h2
        rfl
      · cases h
    · split at h
      · split at h
        · injection h with h2
          subst h2
          rfl
        · cases h
      · cases h
  · simp only [ConvertTypes, hcomp, if_true, h1]
    cases hp : parseQueryDate st.value <;> simp [hp]
  · simp only [ConvertTypes, hcomp, if_true, h2]
    cases hp : parseQueryDate st.value <;> simp [hp]

/-- C1 witness: with `created` a `Date` field and the ordering operator, the
literal `"2021-06-01"` is replaced by the local-time `DateLiteral` for
2021-06-01 00:00:00 retaining the original token, in both operand orders,
while the unmatched literal text would be left alone. -/
theorem ConvertTypes_date_inference_witness :
    ConvertTypes (fun _ => none) (fun _ => none)
      (fun n => if n = "created" then some .FtDate else none)
      (.binary (Operator.mk ⟨.QtkCmpGt, ">", ⟨1, 9⟩⟩)
        (.identifier ⟨.QtkWord, "created", ⟨1, 1⟩⟩)
        (.stringLiteral ⟨.QtkWord, "2021-06-01", ⟨1, 11⟩⟩)) =
      .binary (Operator.mk ⟨.QtkCmpGt, ">", ⟨1, 9⟩⟩)
        (.identifier ⟨.QtkWord, "created", ⟨1, 1⟩⟩)
        (.dateLiteral ⟨2021, 6, 1, 0, 0, 0, true⟩ ⟨.QtkWord, "2021-06-01", ⟨1, 11⟩⟩) := by
  have h := (ConvertTypes_date_inference (fun _ => none) (fun _ => none)
    (fun n => if n = "created" then some .FtDate else none)
    (Operator.mk ⟨.QtkCmpGt, ">", ⟨1, 9⟩⟩)
    ⟨.QtkWord, "created", ⟨1, 1⟩⟩ ⟨.QtkWord, "2021-06-01", ⟨1, 11⟩⟩
    (by decide) (by decide)).2.1
  rw [h]
  decide

/-- C5: coercion failures are silent — on every comparison on which the date
inference applies but the text fails to parse, or the glob/regex inference
applies but the external compile fails, `ConvertTypes` leaves both operand
slots exactly as they were (and, having no diagnostic channel at all, produces
no diagnostic). -/
theorem coercion_failure_silent (gc : String → Option GlobValue)
    (rc : String → Option RegexValue) (ftd : FieldTypeDescriptor) (op : Operator)
    (lhs rhs : Expression) (hcomp : IsComparison op = true) :
    (∀ st side, isDateComparison ftd lhs rhs = some (st, side) →
      parseQueryDate st.value = none →
      ConvertTypes gc rc ftd (.binary op lhs rhs) = .binary op lhs rhs) ∧
    (∀ st side, isGlobComparison ftd op lhs rhs = some (st, side) →
      gc st.value = none →
      ConvertTypes gc rc ftd (.binary op lhs rhs) = .binary op lhs rhs) ∧
    (∀ st side, isRegexComparison ftd op lhs rhs = some (st, side) →
      rc st.value = none →
      ConvertTypes gc rc ftd (.binary op lhs rhs) = .binary op lhs rhs) := by
  refine ⟨?_, ?_, ?_⟩
  · intro st side hd hp
    simp only [ConvertTypes, hcomp, if_true]
    suffices h : processComparisons gc rc ftd op lhs rhs = (lhs, rhs) by rw [h]
    rcases isDateComparison_some ftd lhs rhs st side hd with
      ⟨_, ⟨it, hle, hty⟩, hre⟩ | ⟨_, hle, it, hre, hty⟩
    · subst hle; subst hre
      simp only [processComparisons, processDateComparison, hd, hp]
      rw [processGlobComparison, (isGlobComparison_none_of_dateField ftd op it st hty).1]
      simp only
      rw [processRegexComparison, (isRegexComparison_none_of_dateField ftd op it st hty).1]
    · subst hle; subst hre
      simp only [processComparisons, processDateComparison, hd, hp]
      rw [processGlobComparison, (isGlobComparison_none_of_dateField ftd op it st hty).2]
      simp only
      rw [processRegexComparison, (isRegexComparison_none_of_dateField ftd op it st hty).2]
  · intro st side hg hgc
    simp only [ConvertTypes, hcomp, if_true]
    suffices h : processComparisons gc rc ftd op lhs rhs = (lhs, rhs) by rw [h]
    obtain ⟨hop, hshape⟩ := isGlobComparison_some ftd op lhs rhs st side hg
    have hner : op.operator.tokenType ≠ .QtkCmpRegexp := by simp [hop]
    rcases hshape with ⟨_, ⟨it, hle, hty⟩, hre⟩ | ⟨_, hle, it, hre, hty⟩
    · subst hle; subst hre
      simp only [processComparisons, processDateComparison,
        (isDateComparison_none_of_stringField ftd it st hty).1]
      rw [processGlobComparison, hg]
      simp only [hgc]
      rw [processRegexComparison, isRegexComparison_none_of_op ftd op _ _ hner]
    · subst hle; subst hre
      simp only [processComparisons, processDateComparison,
        (isDateComparison_none_of_stringField ftd it st hty).2]
      rw [processGlobComparison, hg]
      simp only [hgc]
      rw [processRegexComparison, isRegexComparison_none_of_op ftd op _ _ hner]
  · intro st side hr2 hrc
    simp only [ConvertTypes, hcomp, if_true]
    suffices h : processComparisons gc rc ftd op lhs rhs = (lhs, rhs) by rw [h]
    obtain ⟨hop, hshape⟩ := isRegexComparison_some ftd op lhs rhs st side hr2
    have hneg : op.operator.tokenType ≠ .QtkCmpGlob := by simp [hop]
    rcases hshape with ⟨_, ⟨it, hle, hty⟩, hre⟩ | ⟨_, hle, it, hre, hty⟩
    · subst hle; subst hre
      simp only [processComparisons, processDateComparison,
        (isDateComparison_none_of_stringField ftd it st hty).1]
      rw [processGlobComparison, isGlobComparison_none_of_op ftd op _ _ hneg]
      simp only
      rw [processRegexComparison, hr2]
      simp only [hrc]
    · subst hle; subst hre
      simp only [processComparisons, processDateComparison,
        (isDateComparison_none_of_stringField ftd it st hty).2]
      rw [processGlobComparison, isGlobComparison_none_of_op ftd op _ _ hneg]
      simp only
      rw [processRegexComparison, hr2]
      simp only [hrc]

/-- C5 witness: `created = "2021-13-01"` with `created` a `Date` field — the
text matches the date pattern but month 13 is not a valid calendar date, and
`ConvertTypes` leaves both operand slots unchanged. -/
theorem coercion_failure_silent_witness :
    ConvertTypes noGlobCompile noRegexCompile sampleFields
      (.binary (Operator.mk ⟨.QtkCmpEq, "=", ⟨1, 9⟩⟩)
        (.identifier ⟨.QtkWord, "created", ⟨1, 1⟩⟩)
        (.stringLiteral ⟨.QtkWord, "2021-13-01", ⟨1, 11⟩⟩)) =
      .binary (Operator.mk ⟨.QtkCmpEq, "=", ⟨1, 9⟩⟩)
        (.identifier ⟨.QtkWord, "created", ⟨1, 1⟩⟩)
        (.stringLiteral ⟨.QtkWord, "2021-13-01", ⟨1, 11⟩⟩) := by
  have h := (coercion_failure_silent noGlobCompile noRegexCompile sampleFields
    (Operator.mk ⟨.QtkCmpEq, "=", ⟨1, 9⟩⟩)
    (.identifier ⟨.QtkWord, "created", ⟨1, 1⟩⟩)
    (.stringLiteral ⟨.QtkWord, "2021-13-01", ⟨1, 11⟩⟩) (by decide)).1
  have hd : isDateComparison sampleFields
      (.identifier ⟨.QtkWord, "created", ⟨1, 1⟩⟩)
      (.stringLiteral ⟨.QtkWord, "2021-13-01", ⟨1, 11⟩⟩) =
      some (⟨.QtkWord, "2021-13-01", ⟨1, 11⟩⟩, OperandSide.right) := by decide
  have hp : parseQueryDate "2021-13-01" = none := by decide
  exact h ⟨.QtkWord, "2021-13-01", ⟨1, 11⟩⟩ OperandSide.right hd hp

/-- C2: the operand-restriction table restricts exactly the glob-match and
regex-match operator kinds (glob: left `String`, right `Glob`; regex: left
`String`, right `Regex`); every other operator kind is unrestricted, accepts
every type on both sides, and has empty allowed-type collections. -/
theorem operand_restriction_table_spec :
    (∀ op : Operator,
      op.operator.tokenType ≠ .QtkCmpGlob →
      op.operator.tokenType ≠ .QtkCmpRegexp →
      op.isOperandTypeRestricted = false ∧
      (∀ p ft, op.isValidArgument p ft = true) ∧
      (∀ p, op.allowedTypes p = [])) ∧
    (∀ op : Operator, op.operator.tokenType = .QtkCmpGlob →
      op.isOperandTypeRestricted = true ∧
      op.allowedTypes .bopLeft = [.FtString] ∧
      op.allowedTypes .bopRight = [.FtGlob] ∧
      (∀ ft, op.isValidArgument .bopLeft ft = (ft == .FtString)) ∧
      (∀ ft, op.isValidArgument .bopRight ft = (ft == .FtGlob))) ∧
    (∀ op : Operator, op.operator.tokenType = .QtkCmpRegexp →
      op.isOperandTypeRestricted = true ∧
      op.allowedTypes .bopLeft = [.FtString] ∧
      op.allowedTypes .bopRight = [.FtRegex] ∧
      (∀ ft, op.isValidArgument .bopLeft ft = (ft == .FtString)) ∧
      (∀ ft, op.isValidArgument .bopRight ft = (ft == .FtRegex))) := by
  refine ⟨?_, ?_, ?_⟩
  · rintro ⟨⟨t, v, p⟩⟩ h1 h2
    cases t <;>
      simp_all [Operator.isOperandTypeRestricted, Operator.isValidArgument,
        Operator.allowedTypes, operatorAllowedOperandTypes]
  · rintro ⟨⟨t, v, p⟩⟩ h
    cases h
    refine ⟨rfl, rfl, rfl, ?_, ?_⟩ <;> (intro ft; cases ft <;> rfl)
  · rintro ⟨⟨t, v, p⟩⟩ h
    cases h
    refine ⟨rfl, rfl, rfl, ?_, ?_⟩ <;> (intro ft; cases ft <;> rfl)

/-- C2 witness: the equality operator kind is unrestricted, accepts a `Number`
argument on the left, and has an empty allowed-type collection on the right. -/
theorem operand_restriction_table_spec_witness :
    (Operator.mk ⟨.QtkCmpEq, "=", ⟨1, 3⟩⟩).isOperandTypeRestricted = false ∧
    (Operator.mk ⟨.QtkCmpEq, "=", ⟨1, 3⟩⟩).isValidArgument .bopLeft .FtNumber = true ∧
    (Operator.mk ⟨.QtkCmpEq, "=", ⟨1, 3⟩⟩).allowedTypes .bopRight = [] :=
  ⟨(operand_restriction_table_spec.1 _ (by decide) (by decide)).1,
   (operand_restriction_table_spec.1 _ (by decide) (by decide)).2.1 _ _,
   (operand_restriction_table_spec.1 _ (by decide) (by decide)).2.2 _⟩

/-- C3: for a comparison whose two sides both resolve to a field type via the
`TypeDescriptor` capability, an `Invalid` type on either side suppresses both
the restricted-operand-type diagnostic and the different-types diagnostic; the
node's validation result is exactly the diagnostics collected by recursing into
its validatable operands. -/
theorem validate_invalid_type_suppresses_checks :
    ∀ (ftd : FieldTypeDescriptor) (op : Operator) (lhs rhs : Expression)
      (lhsType rhsType : FieldType),
      IsComparison op = true →
      determineFieldType ftd lhs = some lhsType →
      determineFieldType ftd rhs = some rhsType →
      (lhsType = .FtInvalid ∨ rhsType = .FtInvalid) →
      Validate ftd (.binary op lhs rhs) =
        (if lhs.isValidatable then Validate ftd lhs else []) ++
        (if rhs.isValidatable then Validate ftd rhs else []) := by
  intro ftd op lhs rhs lhsType rhsType hcomp hl hr hinv
  simp only [Validate, hcomp, if_true, hl, hr]
  by_cases hres : op.isOperandTypeRestricted = true <;>
    rcases hinv with h | h <;>
      simp [hres, h]

/-- C3 witness: for `unknownfield GLOB "a*"` the left side resolves to
`Invalid`, and validation reports only the unknown-field diagnostic collected
from the identifier operand — no restricted-operand-type diagnostic. -/
theorem validate_invalid_type_suppresses_checks_witness :
    Validate sampleFields
      (.binary (Operator.mk ⟨.QtkCmpGlob, "GLOB", ⟨1, 14⟩⟩)
        (.identifier ⟨.QtkWord, "unknownfield", ⟨1, 1⟩⟩)
        (.stringLiteral ⟨.QtkWord, "a*", ⟨1, 19⟩⟩)) =
      (if (Expression.identifier ⟨.QtkWord, "unknownfield", ⟨1, 1⟩⟩).isValidatable then
        Validate sampleFields (.identifier ⟨.QtkWord, "unknownfield", ⟨1, 1⟩⟩) else []) ++
      (if (Expression.stringLiteral ⟨.QtkWord, "a*", ⟨1, 19⟩⟩).isValidatable then
        Validate sampleFields (.stringLiteral ⟨.QtkWord, "a*", ⟨1, 19⟩⟩) else []) :=
  validate_invalid_type_suppresses_checks sampleFields _ _ _ .FtInvalid .FtString
    rfl (by decide) rfl (Or.inl rfl)

/-- C4 (amended): for every root expression that does not implement the
`LogicalExpression` capability, `Process` returns exactly one diagnostic —
"Expected logical expression but received expression of type `<kind>`" with the
root's kind name — together with no expression (the nil named return value),
performing no coercion and no validation. -/
theorem process_non_logical_root :
    ∀ (globCompile : String → Option GlobValue)
      (regexCompile : String → Option RegexValue)
      (ftd : FieldTypeDescriptor) (e : Expression),
      e.isLogical = false →
      Process globCompile regexCompile ftd e =
        (none, ["Expected logical expression but received expression of type " ++
                e.kindName]) := by
  intro globCompile regexCompile ftd e h
  simp [Process, h]

/-- C4 counterexample: on an identifier root, `Process` does not return the
input expression — the expression component of the result is nil (`none`),
refuting "returns the input expression tree unchanged". -/
theorem process_non_logical_root_counterexample :
    (Process noGlobCompile noRegexCompile sampleFields identRoot).1 ≠ some identRoot ∧
    (Process noGlobCompile noRegexCompile sampleFields identRoot).2 =
      ["Expected logical expression but received expression of type Identifier"] := by
  constructor
  · decide
  · rfl

/-- C4 witness: `Process` applied to the identifier root returns no expression
and the single expected diagnostic. -/
theorem process_non_logical_root_witness :
    Process noGlobCompile noRegexCompile sampleFields identRoot =
      (none, ["Expected logical expression but received expression of type " ++
              Expression.kindName identRoot]) :=
  process_non_logical_root _ _ _ _ rfl

/-- C8 (amended): for a logical-connective binary expression whose left side
is a bare field identifier and whose right side is a string literal, `Validate`
yields exactly two diagnostics, both "Operands of a logical operator must
resolve to boolean values" at the node's position — one per non-logical side
(an identifier is not a `LogicalExpression`). -/
theorem logical_operand_identifier_string (ftd : FieldTypeDescriptor)
    (op : Operator) (it st : QueryToken) (h : IsComparison op = false) :
    Validate ftd (.binary op (.identifier it) (.stringLiteral st)) =
      [GenerateExpressionError (.binary op (.identifier it) (.stringLiteral st))
         "Operands of a logical operator must resolve to boolean values",
       GenerateExpressionError (.binary op (.identifier it) (.stringLiteral st))
         "Operands of a logical operator must resolve to boolean values"] := by
  simp [Validate, h, Expression.isLogical]

/-- C8 counterexample: `name AND "literal"` (with `name` a known `String`
field) yields two diagnostics, not exactly one. -/
theorem logical_operand_identifier_string_counterexample :
    (Validate sampleFields
      (.binary (Operator.mk ⟨.QtkAnd, "AND", ⟨1, 6⟩⟩)
        (.identifier ⟨.QtkWord, "name", ⟨1, 1⟩⟩)
        (.stringLiteral ⟨.QtkWord, "literal", ⟨1, 10⟩⟩))).length ≠ 1 := by
  decide

/-- C8 witness: the two boolean-operand diagnostics for `name AND "literal"`. -/
theorem logical_operand_identifier_string_witness :
    Validate sampleFields
      (.binary (Operator.mk ⟨.QtkAnd, "AND", ⟨1, 6⟩⟩)
        (.identifier ⟨.QtkWord, "name", ⟨1, 1⟩⟩)
        (.stringLiteral ⟨.QtkWord, "literal", ⟨1, 10⟩⟩)) =
      [GenerateExpressionError
         (.binary (Operator.mk ⟨.QtkAnd, "AND", ⟨1, 6⟩⟩)
           (.identifier ⟨.QtkWord, "name", ⟨1, 1⟩⟩)
           (.stringLiteral ⟨.QtkWord, "literal", ⟨1, 10⟩⟩))
         "Operands of a logical operator must resolve to boolean values",
       GenerateExpressionError
         (.binary (Operator.mk ⟨.QtkAnd, "AND", ⟨1, 6⟩⟩)
           (.identifier ⟨.QtkWord, "name", ⟨1, 1⟩⟩)
           (.stringLiteral ⟨.QtkWord, "literal", ⟨1, 10⟩⟩))
         "Operands of a logical operator must resolve to boolean values"] :=
  logical_operand_identifier_string sampleFields _ _ _ rfl

/-- C10: a non-logical operand of a logical-connective binary expression is
never recursed into, even when it is validatable — its side contributes exactly
the single boolean-operand diagnostic, generated at the binary node's own
position; concretely, for `name AND mystery` with `mystery` an unknown field,
no "Invalid field" diagnostic appears and both diagnostics carry the node's
position 1:1, not the offending operand's position 1:10. -/
theorem logical_operand_not_recursed :
    (∀ (ftd : FieldTypeDescriptor) (op : Operator) (l r : Expression),
      IsComparison op = false → r.isLogical = false →
      Validate ftd (.binary op l r) =
        (if l.isLogical then Validate ftd l
         else [GenerateExpressionError (.binary op l r)
           "Operands of a logical operator must resolve to boolean values"]) ++
        [GenerateExpressionError (.binary op l r)
          "Operands of a logical operator must resolve to boolean values"]) ∧
    Validate sampleFields
      (.binary (Operator.mk ⟨.QtkAnd, "AND", ⟨1, 6⟩⟩)
        (.identifier ⟨.QtkWord, "name", ⟨1, 1⟩⟩)
        (.identifier ⟨.QtkWord, "mystery", ⟨1, 10⟩⟩)) =
      ["1:1: Operands of a logical operator must resolve to boolean values",
       "1:1: Operands of a logical operator must resolve to boolean values"] ∧
    (Expression.identifier ⟨.QtkWord, "mystery", ⟨1, 10⟩⟩).Pos ≠
      (Expression.binary (Operator.mk ⟨.QtkAnd, "AND", ⟨1, 6⟩⟩)
        (.identifier ⟨.QtkWord, "name", ⟨1, 1⟩⟩)
        (.identifier ⟨.QtkWord, "mystery", ⟨1, 10⟩⟩)).Pos := by
  refine ⟨?_, by decide, by decide⟩
  intro ftd op l r hc hr
  simp [Validate, hc, hr]

/-- C10 witness: for `name OR 42` the right side contributes exactly the
boolean-operand diagnostic at the node's position. -/
theorem logical_operand_not_recursed_witness :
    Validate sampleFields
      (.binary (Operator.mk ⟨.QtkOr, "OR", ⟨2, 6⟩⟩)
        (.identifier ⟨.QtkWord, "name", ⟨2, 1⟩⟩)
        (.numberLiteral ⟨.QtkWord, "42", ⟨2, 9⟩⟩)) =
      (if (Expression.identifier ⟨.QtkWord, "name", ⟨2, 1⟩⟩).isLogical then
        Validate sampleFields (.identifier ⟨.QtkWord, "name", ⟨2, 1⟩⟩)
       else [GenerateExpressionError
         (.binary (Operator.mk ⟨.QtkOr, "OR", ⟨2, 6⟩⟩)
           (.identifier ⟨.QtkWord, "name", ⟨2, 1⟩⟩)
           (.numberLiteral ⟨.QtkWord, "42", ⟨2, 9⟩⟩))
         "Operands of a logical operator must resolve to boolean values"]) ++
      [GenerateExpressionError
         (.binary (Operator.mk ⟨.QtkOr, "OR", ⟨2, 6⟩⟩)
           (.identifier ⟨.QtkWord, "name", ⟨2, 1⟩⟩)
           (.numberLiteral ⟨.QtkWord, "42", ⟨2, 9⟩⟩))
         "Operands of a logical operator must resolve to boolean values"] :=
  logical_operand_not_recursed.1 sampleFields _ _ _ rfl rfl

/-- Swapping the operands mirrors the date-candidate detection: the same
candidate token is found on the opposite slot. -/
theorem isDateComparison_swap (ftd : FieldTypeDescriptor) (l r : Expression) :
    isDateComparison ftd r l =
      Option.map (fun x => (x.1, flipSide x.2)) (isDateComparison ftd l r) := by
  cases l <;> cases r <;> simp [isDateComparison, flipSide]

/-- Swapping the operands mirrors the glob-candidate detection. -/
theorem isGlobComparison_swap (ftd : FieldTypeDescriptor) (op : Operator)
    (l r : Expression) :
    isGlobComparison ftd op r l =
      Option.map (fun x => (x.1, flipSide x.2)) (isGlobComparison ftd op l r) := by
  unfold isGlobComparison
  split
  · cases l <;> cases r <;> simp [flipSide]
  · rfl

/-- Swapping the operands mirrors the regex-candidate detection. -/
theorem isRegexComparison_swap (ftd : FieldTypeDescriptor) (op : Operator)
    (l r : Expression) :
    isRegexComparison ftd op r l =
      Option.map (fun x => (x.1, flipSide x.2)) (isRegexComparison ftd op l r) := by
  unfold isRegexComparison
  split
  · cases l <;> cases r <;> simp [flipSide]
  · rfl

/-- The date inference commutes with swapping the operand pair. -/
theorem processDateComparison_swap (ftd : FieldTypeDescriptor) (l r : Expression) :
    processDateComparison ftd r l = Prod.swap (processDateComparison ftd l r) := by
  unfold processDateComparison
  rw [isDateComparison_swap ftd l r]
  cases hc : isDateComparison ftd l r with
  | none => rfl
  | some v =>
    obtain ⟨st, side⟩ := v
    simp only [Option.map]
    cases hp : parseQueryDate st.value with
    | none => simp only [hp]; rfl
    | some dt =>
      simp only [hp]
      cases side <;> rfl

/-- The glob inference commutes with swapping the operand pair. -/
theorem processGlobComparison_swap (gc : String → Option GlobValue)
    (ftd : FieldTypeDescriptor) (op : Operator) (l r : Expression) :
    processGlobComparison gc ftd op r l =
      Prod.swap (processGlobComparison gc ftd op l r) := by
  unfold processGlobComparison
  rw [isGlobComparison_swap ftd op l r]
  cases hc : isGlobComparison ftd op l r with
  | none => rfl
  | some v =>
    obtain ⟨st, side⟩ := v
    simp only [Option.map]
    cases hp : gc st.value with
    | none => simp only [hp]; rfl
    | some g =>
      simp only [hp]
      cases side <;> rfl

/-- The regex inference commutes with swapping the operand pair. -/
theorem processRegexComparison_swap (rc : String → Option RegexValue)
    (ftd : FieldTypeDescriptor) (op : Operator) (l r : Expression) :
    processRegexComparison rc ftd op r l =
      Prod.swap (processRegexComparison rc ftd op l r) := by
  unfold processRegexComparison
  rw [isRegexComparison_swap ftd op l r]
  cases hc : isRegexComparison ftd op l r with
  | none => rfl
  | some v =>
    obtain ⟨st, side⟩ := v
    simp only [Option.map]
    cases hp : rc st.value with
    | none => simp only [hp]; rfl
    | some re =>
      simp only [hp]
      cases side <;> rfl

/-- The full inference sequence commutes with swapping the operand pair. -/
theorem processComparisons_swap (gc : String → Option GlobValue)
    (rc : String → Option RegexValue) (ftd : FieldTypeDescriptor) (op : Operator)
    (l r : Expression) :
    processComparisons gc rc ftd op r l =
      Prod.swap (processComparisons gc rc ftd op l r) := by
  simp only [processComparisons]
  rw [processDateComparison_swap ftd l r]
  simp only [Prod.swap]
  rw [processGlobComparison_swap gc ftd op
    (processDateComparison ftd l r).1 (processDateComparison ftd l r).2]
  simp only [Prod.swap]
  rw [processRegexComparison_swap rc ftd op
    (processGlobComparison gc ftd op (processDateComparison ftd l r).1
      (processDateComparison ftd l r).2).1
    (processGlobComparison gc ftd op (processDateComparison ftd l r).1
      (processDateComparison ftd l r).2).2]
  simp [Prod.swap]

/-- C7 (amended): for every comparison, swapping the two operands does not
change whether an inference applies or what replacement it performs — the
coerced tree of the swapped comparison is the operand-wise swap of the coerced
tree of the original; in particular, with the `Date` field `created`, both
`created = "2021-01-01"` and `"2021-01-01" = created` yield a materialized
`DateLiteral` and no diagnostics.  (Validation diagnostics are not
order-independent in general: see the counterexample for the restricted
glob-match operator.) -/
theorem side_order_amended :
    (∀ (gc : String → Option GlobValue) (rc : String → Option RegexValue)
      (ftd : FieldTypeDescriptor) (op : Operator) (l r : Expression),
      IsComparison op = true →
      ConvertTypes gc rc ftd (.binary op l r) =
        .binary op (processComparisons gc rc ftd op l r).1
          (processComparisons gc rc ftd op l r).2 ∧
      ConvertTypes gc rc ftd (.binary op r l) =
        .binary op (processComparisons gc rc ftd op l r).2
          (processComparisons gc rc ftd op l r).1) ∧
    (ConvertTypes noGlobCompile noRegexCompile sampleFields
       (.binary (Operator.mk ⟨.QtkCmpEq, "=", ⟨1, 9⟩⟩)
         (.identifier ⟨.QtkWord, "created", ⟨1, 1⟩⟩)
         (.stringLiteral ⟨.QtkWord, "2021-01-01", ⟨1, 11⟩⟩)) =
       .binary (Operator.mk ⟨.QtkCmpEq, "=", ⟨1, 9⟩⟩)
         (.identifier ⟨.QtkWord, "created", ⟨1, 1⟩⟩)
         (.dateLiteral ⟨2021, 1, 1, 0, 0, 0, true⟩ ⟨.QtkWord, "2021-01-01", ⟨1, 11⟩⟩) ∧
     Validate sampleFields
       (.binary (Operator.mk ⟨.QtkCmpEq, "=", ⟨1, 9⟩⟩)
         (.identifier ⟨.QtkWord, "created", ⟨1, 1⟩⟩)
         (.dateLiteral ⟨2021, 1, 1, 0, 0, 0, true⟩ ⟨.QtkWord, "2021-01-01", ⟨1, 11⟩⟩)) = []) ∧
    (ConvertTypes noGlobCompile noRegexCompile sampleFields
       (.binary (Operator.mk ⟨.QtkCmpEq, "=", ⟨1, 13⟩⟩)
         (.stringLiteral ⟨.QtkWord, "2021-01-01", ⟨1, 1⟩⟩)
         (.identifier ⟨.QtkWord, "created", ⟨1, 15⟩⟩)) =
       .binary (Operator.mk ⟨.QtkCmpEq, "=", ⟨1, 13⟩⟩)
         (.dateLiteral ⟨2021, 1, 1, 0, 0, 0, true⟩ ⟨.QtkWord, "2021-01-01", ⟨1, 1⟩⟩)
         (.identifier ⟨.QtkWord, "created", ⟨1, 15⟩⟩) ∧
     Validate sampleFields
       (.binary (Operator.mk ⟨.QtkCmpEq, "=", ⟨1, 13⟩⟩)
         (.dateLiteral ⟨2021, 1, 1, 0, 0, 0, true⟩ ⟨.QtkWord, "2021-01-01", ⟨1, 1⟩⟩)
         (.identifier ⟨.QtkWord, "created", ⟨1, 15⟩⟩)) = []) := by
  refine ⟨?_, by constructor <;> decide, by constructor <;> decide⟩
  intro gc rc ftd op l r hcomp
  constructor
  · simp [ConvertTypes, hcomp]
  · simp only [ConvertTypes, hcomp, if_true]
    rw [processComparisons_swap gc rc ftd op l r]
    rfl

/-- C7 counterexample: side order does change validation outcomes for the
restricted glob-match operator — `name GLOB "a*"` validates cleanly, while the
swapped `"a*" GLOB name` (whose glob literal is materialized into the left
slot) produces diagnostics. -/
theorem side_order_counterexample :
    Validate sampleFields
      (ConvertTypes okGlobCompile noRegexCompile sampleFields
        (.binary (Operator.mk ⟨.QtkCmpGlob, "GLOB", ⟨1, 6⟩⟩)
          (.identifier ⟨.QtkWord, "name", ⟨1, 1⟩⟩)
          (.stringLiteral ⟨.QtkWord, "a*", ⟨1, 11⟩⟩))) = [] ∧
    Validate sampleFields
      (ConvertTypes okGlobCompile noRegexCompile sampleFields
        (.binary (Operator.mk ⟨.QtkCmpGlob, "GLOB", ⟨1, 6⟩⟩)
          (.stringLiteral ⟨.QtkWord, "a*", ⟨1, 1⟩⟩)
          (.identifier ⟨.QtkWord, "name", ⟨1, 9⟩⟩))) ≠ [] := by
  constructor <;> decide

/-- C7 witness: coercion commutes with operand swap for the ordering
comparison of the `created` field. -/
theorem side_order_amended_witness :
    ConvertTypes noGlobCompile noRegexCompile sampleFields
      (.binary (Operator.mk ⟨.QtkCmpLt, "<", ⟨3, 9⟩⟩)
        (.stringLiteral ⟨.QtkWord, "2020-02-29", ⟨3, 1⟩⟩)
        (.identifier ⟨.QtkWord, "created", ⟨3, 11⟩⟩)) =
      .binary (Operator.mk ⟨.QtkCmpLt, "<", ⟨3, 9⟩⟩)
        (processComparisons noGlobCompile noRegexCompile sampleFields
          (Operator.mk ⟨.QtkCmpLt, "<", ⟨3, 9⟩⟩)
          (.identifier ⟨.QtkWord, "created", ⟨3, 11⟩⟩)
          (.stringLiteral ⟨.QtkWord, "2020-02-29", ⟨3, 1⟩⟩)).2
        (processComparisons noGlobCompile noRegexCompile sampleFields
          (Operator.mk ⟨.QtkCmpLt, "<", ⟨3, 9⟩⟩)
          (.identifier ⟨.QtkWord, "created", ⟨3, 11⟩⟩)
          (.stringLiteral ⟨.QtkWord, "2020-02-29", ⟨3, 1⟩⟩)).1 :=
  (side_order_amended.1 noGlobCompile noRegexCompile sampleFields
    (Operator.mk ⟨.QtkCmpLt, "<", ⟨3, 9⟩⟩)
    (.identifier ⟨.QtkWord, "created", ⟨3, 11⟩⟩)
    (.stringLiteral ⟨.QtkWord, "2020-02-29", ⟨3, 1⟩⟩) (by decide)).2

end Grv
